import Mathlib

/-!
# Verification of the face-recognition system's specification

A shallow embedding of the repository's recognition matcher
(`src/face_recognition_system.py`), gallery store, history recorder and
capture-loop logging (`gui/app.py`, `src/database_manager.py`), with
theorems settling the specification's claims about them.

Modelling conventions:
* Face encodings are opaque tokens (`ℕ`); the external library's
  `face_recognition.face_distance` is an abstract distance function
  `Encoding → Encoding → ℚ` supplied as a parameter, since the embedding
  model is outside the repository.
* Real-valued quantities (distances, confidences, times in seconds) are
  rationals.
* The filesystem is a list of existing paths; the pickle store
  `face_encodings.pkl` is an optional well-typed `(names, encodings)` pair.
* A camera frame or image is represented by the list of face encodings
  the external library detects in it (`none` for an image file whose
  loading raises).
-/

namespace FaceRec

/-- Opaque face-embedding vectors produced by the external library. -/
abbrev Encoding := ℕ

/-- The external library's distance between two encodings
(`face_recognition.face_distance` applies it entrywise to the gallery). -/
abbrev DistFn := Encoding → Encoding → ℚ

/-- The gallery state of `FaceRecognitionSystem`: the two index-aligned
lists `known_face_encodings` and `known_face_names`. -/
structure FRState where
  known_face_encodings : List Encoding
  known_face_names : List String
  deriving Repr, DecidableEq

/-- `face_recognition.face_distance(known_face_encodings, face_encoding)`:
one scalar distance per gallery entry, in gallery order. -/
def face_distance (d : DistFn) (known : List Encoding) (q : Encoding) : List ℚ :=
  known.map (fun e => d e q)

/-- `np.argmin`: the index of the first occurrence of the minimum of a
list (0 on the empty list, where NumPy instead raises). -/
def argmin (l : List ℚ) : ℕ :=
  match l.min? with
  | some m => List.indexOf m l
  | none => 0

/-- `FaceRecognitionSystem.recognize_face`: distance to every gallery
entry, pick the argmin, confidence `max(0, 1 - distance) * 100`, accept
iff `distance < 0.6`, else `("Unknown", 0)`.  (When the names list is
shorter than the encodings list Python would raise an `IndexError`; the
embedding returns `""` there — gallery states keep the lists aligned.) -/
def recognize_face (d : DistFn) (s : FRState) (face_encoding : Encoding) : String × ℚ :=
  if 0 < s.known_face_encodings.length then
    let face_distances := face_distance d s.known_face_encodings face_encoding
    let best_match_index := argmin face_distances
    let distance := face_distances.getD best_match_index 0
    let confidence := max 0 (1 - distance) * 100
    if distance < 3/5 then
      (s.known_face_names.getD best_match_index "", confidence)
    else
      ("Unknown", 0)
  else
    ("Unknown", 0)

/-- Witness data: a one-element gallery. -/
def galleryA : FRState := ⟨[0], ["Alice"]⟩

/-- Python's `name.replace(" ", "_")` (single-character pattern). -/
def safe_name (name : String) : String :=
  ⟨name.data.map (fun c => if c = ' ' then '_' else c)⟩

/-- Python's `str.strip()`: remove leading and trailing whitespace. -/
def strip (s : String) : String :=
  ⟨((s.data.dropWhile Char.isWhitespace).reverse.dropWhile Char.isWhitespace).reverse⟩

/-- The environment a gallery operation touches: the in-memory gallery,
the set of image files present on disk, and the contents of the pickle
file `face_encodings.pkl` (`none` = file absent). -/
structure Env where
  sys : FRState
  files : List String
  store : Option (List String × List Encoding)
  deriving Repr, DecidableEq

/-- Writing an image file: the path is present afterwards
(`PIL.Image.save` overwrites silently). -/
def file_write (files : List String) (path : String) : List String :=
  if path ∈ files then files else files ++ [path]

/-- `os.remove` guarded by `os.path.exists`: drop the path if present. -/
def file_delete (files : List String) (path : String) : List String :=
  files.filter (fun p => p != path)

/-- `save_encodings`: pickle `{"names": ..., "encodings": ...}` to the
store file (full overwrite). -/
def save_encodings (env : Env) : Env :=
  { env with store := some (env.sys.known_face_names, env.sys.known_face_encodings) }

/-- `load_encodings`: if the store file exists, replace both in-memory
lists with its contents and return `true`; otherwise return `false`. -/
def load_encodings (env : Env) : Env × Bool :=
  match env.store with
  | some data =>
      ({ env with sys := { known_face_encodings := data.2, known_face_names := data.1 } }, true)
  | none => (env, false)

/-- `add_face_from_frame`: if at least one face is detected in the
frame, the frame is saved as `known_faces/<safe_name>.jpg`, the FIRST
encoding and the name are appended, and the gallery is pickled;
otherwise `false` with nothing changed. -/
def add_face_from_frame (env : Env) (frame : List Encoding) (name : String) : Env × Bool :=
  match frame with
  | [] => (env, false)
  | e :: _ =>
      let filename := "known_faces/" ++ safe_name name ++ ".jpg"
      (save_encodings
        { env with
          files := file_write env.files filename,
          sys := { known_face_encodings := env.sys.known_face_encodings ++ [e],
                   known_face_names := env.sys.known_face_names ++ [name] } }, true)

/-- `add_face_from_image`: `none` models an image file whose loading
raises (the exception is caught and `false` returned).  Behaviour then
matches `add_face_from_frame`: any nonempty detection list is accepted
and its first encoding registered. -/
def add_face_from_image (env : Env) (img : Option (List Encoding)) (name : String) :
    Env × Bool :=
  match img with
  | none => (env, false)
  | some [] => (env, false)
  | some (e :: _) =>
      let filename := "known_faces/" ++ safe_name name ++ ".jpg"
      (save_encodings
        { env with
          files := file_write env.files filename,
          sys := { known_face_encodings := env.sys.known_face_encodings ++ [e],
                   known_face_names := env.sys.known_face_names ++ [name] } }, true)

/-- `capture_new_face`: rejects a frame with zero detected faces and a
frame with more than one; with exactly one face and a nonempty stripped
name it saves the image, appends the encoding and name and pickles the
gallery.  (`name_input` is what `input()` returns.) -/
def capture_new_face (env : Env) (frame : List Encoding) (name_input : String) : Env :=
  match frame with
  | [] => env
  | _ :: _ :: _ => env
  | [e] =>
      let name := strip name_input
      if name ≠ "" then
        let filename := "known_faces/" ++ safe_name name ++ ".jpg"
        save_encodings
          { env with
            files := file_write env.files filename,
            sys := { known_face_encodings := env.sys.known_face_encodings ++ [e],
                     known_face_names := env.sys.known_face_names ++ [name] } }
      else env

/-- `remove_face`: if the name is present, delete its first index from
both lists, delete both image-path variants, re-pickle and return
`true`; otherwise return `false` with nothing changed. -/
def remove_face (env : Env) (name : String) : Env × Bool :=
  if name ∈ env.sys.known_face_names then
    let idx := List.indexOf name env.sys.known_face_names
    let image_path1 := "known_faces/" ++ name ++ ".jpg"
    let image_path2 := "known_faces/" ++ safe_name name ++ ".jpg"
    (save_encodings
      { env with
        files := file_delete (file_delete env.files image_path1) image_path2,
        sys := { known_face_encodings := env.sys.known_face_encodings.eraseIdx idx,
                 known_face_names := env.sys.known_face_names.eraseIdx idx } }, true)
  else (env, false)

/-- The empty starting environment: no known faces, no files, no pickle. -/
def env0 : Env := ⟨⟨[], []⟩, [], none⟩

/-- Witness data: a gallery with "Ann B" registered, both image-path
variants on disk. -/
def envR : Env :=
  ⟨⟨[4], ["Ann B"]⟩, ["known_faces/Ann B.jpg", "known_faces/Ann_B.jpg"], none⟩

/-- One gallery operation, as reachable from the application. -/
inductive GalleryOp where
  | loadEnc : GalleryOp
  | addFrame : List Encoding → String → GalleryOp
  | addImage : Option (List Encoding) → String → GalleryOp
  | capture : List Encoding → String → GalleryOp
  | remove : String → GalleryOp
  deriving Repr, DecidableEq

/-- The environment after one gallery operation. -/
def apply_op (env : Env) : GalleryOp → Env
  | .loadEnc => (load_encodings env).1
  | .addFrame f n => (add_face_from_frame env f n).1
  | .addImage i n => (add_face_from_image env i n).1
  | .capture f n => capture_new_face env f n
  | .remove n => (remove_face env n).1

/-- The environment after a sequence of gallery operations. -/
def apply_ops (env : Env) (ops : List GalleryOp) : Env :=
  ops.foldl apply_op env

/-- Alignment invariant: in memory and in the pickle store, the names
list and the encodings list have the same length. -/
def Aligned (env : Env) : Prop :=
  env.sys.known_face_names.length = env.sys.known_face_encodings.length ∧
  ∀ ns es, env.store = some (ns, es) → ns.length = es.length

/-- Witness data: one operation of each kind. -/
def opsW : List GalleryOp :=
  [GalleryOp.addFrame [5] "Alice", GalleryOp.loadEnc, GalleryOp.remove "Alice",
   GalleryOp.addImage (some [6, 7]) "Bob", GalleryOp.capture [8] "Cara"]

/-- One row of the in-memory recognition history (the CSV's
`date`/`time` columns are projections of `timestamp` and the
`confidence` column its `"%.2f%%"` rendering; the embedding keeps the
underlying values). -/
structure HistRecord where
  timestamp : ℚ
  name : String
  confidence : ℚ
  deriving Repr, DecidableEq

/-- The GUI's history-recorder state: the in-memory history list, the
`last_recognized` per-name timestamp dictionary, the cooldown in
seconds, the auto-save flag and the contents of
`data/recognition_history.csv` (`none` = file absent). -/
structure GuiState where
  recognition_history : List HistRecord
  last_recognized : List (String × ℚ)
  recognition_cooldown : ℚ
  auto_save_enabled : Bool
  history_file : Option (List HistRecord)
  deriving Repr, DecidableEq

/-- Python dict assignment `d[k] = v`: the key now maps to `v`, all
other keys are unchanged. -/
def dict_insert (l : List (String × ℚ)) (k : String) (v : ℚ) : List (String × ℚ) :=
  (k, v) :: l.filter (fun p => p.1 != k)

/-- `save_history`: rewrite the whole CSV from the in-memory list. -/
def save_history (st : GuiState) : GuiState :=
  { st with history_file := some st.recognition_history }

/-- The cooldown test of `add_recognition_to_history`: the name was
recognized before and too recently. -/
def cooldown_blocks (st : GuiState) (name : String) (current_time : ℚ) : Bool :=
  match List.lookup name st.last_recognized with
  | some t => decide (current_time - t < st.recognition_cooldown)
  | none => false

/-- `add_recognition_to_history`: drop the event inside the cooldown
window; otherwise append a record, update `last_recognized[name]` and,
if auto-save is enabled, persist the full in-memory log to the CSV. -/
def add_recognition_to_history (st : GuiState) (name : String) (confidence : ℚ)
    (current_time : ℚ) : GuiState :=
  if cooldown_blocks st name current_time then st
  else
    let record : HistRecord := ⟨current_time, name, confidence⟩
    let st1 := { st with
      recognition_history := st.recognition_history ++ [record],
      last_recognized := dict_insert st.last_recognized name current_time }
    if st1.auto_save_enabled then save_history st1 else st1

/-- Witness data: "Bob" was last logged at time 10, cooldown 5s. -/
def stG : GuiState := ⟨[], [("Bob", 10)], 5, true, none⟩

/-- `DatabaseManager.log_recognition`: insert a `recognition_logs` row
only when the person exists in the `persons` table; a row is `(person
name, confidence fraction)`. -/
def log_recognition (persons : List String) (log : List (String × ℚ))
    (person_name : String) (confidence : ℚ) : List (String × ℚ) :=
  if person_name ∈ persons then log ++ [(person_name, confidence)] else log

/-- The logging targets the capture loop writes to: the GUI history
recorder and the database's `recognition_logs` rows. -/
structure LoopState where
  gui : GuiState
  db_log : List (String × ℚ)
  deriving Repr, DecidableEq

/-- One face encoding processed inside `video_loop`: recognize it and,
only when the name is not "Unknown" and the confidence is positive, log
it to the history recorder and (at `confidence / 100`) to the database.
Drawing and display are omitted: they do not touch the logs. -/
def video_loop_process_encoding (d : DistFn) (sys : FRState) (persons : List String)
    (now : ℚ) (st : LoopState) (enc : Encoding) : LoopState :=
  let r := recognize_face d sys enc
  if r.1 ≠ "Unknown" ∧ 0 < r.2 then
    { gui := add_recognition_to_history st.gui r.1 r.2 now,
      db_log := log_recognition persons st.db_log r.1 (r.2 / 100) }
  else st

/-- All face encodings of one processed frame, in order. -/
def video_loop_process_frame (d : DistFn) (sys : FRState) (persons : List String)
    (now : ℚ) (st : LoopState) (encs : List Encoding) : LoopState :=
  encs.foldl (video_loop_process_encoding d sys persons now) st

/-- The capture loop over a sequence of processed frames, each a
timestamp with its detected encodings. -/
def video_loop_run (d : DistFn) (sys : FRState) (persons : List String)
    (st : LoopState) (frames : List (ℚ × List Encoding)) : LoopState :=
  frames.foldl (fun s fr => video_loop_process_frame d sys persons fr.1 s fr.2) st

/-- No log entry for an unrecognized face: every history record and
every database row names a known person (never "Unknown") with positive
confidence. -/
def LogInv (st : LoopState) : Prop :=
  (∀ r ∈ st.gui.recognition_history, r.name ≠ "Unknown" ∧ 0 < r.confidence) ∧
  (∀ p ∈ st.db_log, p.1 ≠ "Unknown" ∧ 0 < p.2)

/-- Witness data: an empty loop state with an empty history recorder. -/
def loopW : LoopState := ⟨⟨[], [], 5, true, none⟩, []⟩

/-- Witness data: two frames seen by the capture loop. -/
def framesW : List (ℚ × List Encoding) := [(0, [0]), (3, [0, 9])]

/-! ## Properties of `argmin` -/

lemma min?_isSome {l : List ℚ} (h : l ≠ []) : ∃ m, l.min? = some m := by
  cases l with
  | nil => exact absurd rfl h
  | cons x xs => exact ⟨xs.foldl min x, rfl⟩

lemma min?_spec {l : List ℚ} {m : ℚ} (h : l.min? = some m) :
    m ∈ l ∧ ∀ b ∈ l, m ≤ b := by
  have hiff := @List.min?_eq_some_iff ℚ m _ _ ⟨fun h1 h2 => le_antisymm h1 h2⟩
    (fun a => le_refl a) (fun a b => min_choice a b)
    (fun _ _ _ => le_min_iff) l
  exact hiff.mp h

lemma argmin_getD {l : List ℚ} {m : ℚ} (h : l.min? = some m) :
    argmin l < l.length ∧ l.getD (argmin l) 0 = m := by
  obtain ⟨hmem, -⟩ := min?_spec h
  have hidx : List.indexOf m l < l.length := List.indexOf_lt_length.mpr hmem
  have harg : argmin l = List.indexOf m l := by unfold argmin; rw [h]
  refine ⟨harg ▸ hidx, ?_⟩
  rw [harg, List.getD_eq_getElem _ _ hidx]
  exact List.getElem_indexOf hidx

/-- The distance list of a nonempty gallery is nonempty. -/
lemma face_distance_ne_nil {d : DistFn} {known : List Encoding} {q : Encoding}
    (h : known ≠ []) : face_distance d known q ≠ [] := by
  simpa [face_distance] using h

/-- `recognize_face` on a nonempty gallery, unfolded. -/
lemma recognize_face_nonempty (d : DistFn) (s : FRState) (q : Encoding)
    (h : s.known_face_encodings ≠ []) :
    recognize_face d s q =
      (if (face_distance d s.known_face_encodings q).getD
            (argmin (face_distance d s.known_face_encodings q)) 0 < 3/5 then
        (s.known_face_names.getD (argmin (face_distance d s.known_face_encodings q)) "",
          max 0 (1 - (face_distance d s.known_face_encodings q).getD
            (argmin (face_distance d s.known_face_encodings q)) 0) * 100)
      else ("Unknown", 0)) := by
  simp only [recognize_face, List.length_pos.mpr h, if_true]

/-! ## C3: empty gallery -/

/-- C3: for every query encoding (and every distance function and names
list), `recognize_face` with an empty gallery of known face encodings
returns exactly `("Unknown", 0)`. -/
theorem recognize_face_empty_gallery (d : DistFn) (names : List String) (q : Encoding) :
    recognize_face d ⟨[], names⟩ q = ("Unknown", 0) := rfl

/-! ## C2: distances at or beyond the 0.6 threshold -/

/-- C2: on a nonempty gallery, when every gallery entry is at distance
`≥ 0.6` from the query (equivalently, the minimal distance is `≥ 0.6`),
`recognize_face` returns `("Unknown", 0)`: the boundary `distance = 0.6`
is excluded from acceptance and the confidence is forced to `0`. -/
theorem recognize_face_far_query (d : DistFn) (s : FRState) (q : Encoding)
    (hne : s.known_face_encodings ≠ [])
    (hfar : ∀ e ∈ s.known_face_encodings, 3/5 ≤ d e q) :
    recognize_face d s q = ("Unknown", 0) := by
  obtain ⟨m, hm⟩ := min?_isSome (face_distance_ne_nil hne (d := d) (q := q))
  obtain ⟨hlt, hval⟩ := argmin_getD hm
  obtain ⟨hmem, -⟩ := min?_spec hm
  obtain ⟨e, he, hev⟩ := List.mem_map.mp (by simpa [face_distance] using hmem)
  have h06 : ¬ ((face_distance d s.known_face_encodings q).getD
      (argmin (face_distance d s.known_face_encodings q)) 0 < 3/5) := by
    rw [hval, ← hev]
    exact not_lt.mpr (hfar e he)
  rw [recognize_face_nonempty d s q hne, if_neg h06]

/-- C2 witness: a constant distance of `1 ≥ 0.6` yields `("Unknown", 0)`. -/
theorem recognize_face_far_query_witness :
    (galleryA.known_face_encodings ≠ [] ∧
      ∀ e ∈ galleryA.known_face_encodings, (3:ℚ)/5 ≤ (fun _ _ => (1:ℚ)) e 7) ∧
    recognize_face (fun _ _ => (1:ℚ)) galleryA 7 = ("Unknown", 0) :=
  ⟨⟨by simp [galleryA], by intro e _; norm_num⟩,
    recognize_face_far_query (fun _ _ => (1:ℚ)) galleryA 7 (by simp [galleryA])
      (by intro e _; norm_num)⟩

/-! ## C4: confidence range and accepted matches -/

/-- C4: when all distances are nonnegative (as the external library's
norm-based distances are), the confidence returned by `recognize_face`
lies in `[0, 100]`; when the minimal distance `m` to the gallery
satisfies `m < 0.6` the result is confidence `max 0 (1 - m) * 100`
together with the name stored at an index realising the minimal
distance; in particular, a gallery `[("Alice", e1)]` queried at distance
`0` yields `("Alice", 100)`. -/
theorem recognize_face_confidence (d : DistFn) (s : FRState) (q : Encoding)
    (hnn : ∀ e ∈ s.known_face_encodings, 0 ≤ d e q) :
    (0 ≤ (recognize_face d s q).2 ∧ (recognize_face d s q).2 ≤ 100) ∧
    (∀ m, (face_distance d s.known_face_encodings q).min? = some m → m < 3/5 →
      (recognize_face d s q).2 = max 0 (1 - m) * 100 ∧
      ∃ i, ∃ hi : i < s.known_face_encodings.length,
        d (s.known_face_encodings.get ⟨i, hi⟩) q = m ∧
        (recognize_face d s q).1 = s.known_face_names.getD i "") ∧
    (∀ e1 nm, d e1 q = 0 → recognize_face d ⟨[e1], [nm]⟩ q = (nm, 100)) := by
  refine ⟨?_, ?_, ?_⟩
  · by_cases hne : s.known_face_encodings = []
    · simp [recognize_face, hne]
    · obtain ⟨m, hm⟩ := min?_isSome (face_distance_ne_nil hne (d := d) (q := q))
      obtain ⟨hlt, hval⟩ := argmin_getD hm
      obtain ⟨hmem, -⟩ := min?_spec hm
      obtain ⟨e, he, hev⟩ := List.mem_map.mp (by simpa [face_distance] using hmem)
      rw [recognize_face_nonempty d s q hne]
      have hm0 : 0 ≤ m := hev ▸ hnn e he
      by_cases hacc : (face_distance d s.known_face_encodings q).getD
          (argmin (face_distance d s.known_face_encodings q)) 0 < 3/5
      · rw [if_pos hacc]
        refine ⟨mul_nonneg (le_max_left _ _) (by norm_num), ?_⟩
        have h1 : max 0 (1 - (face_distance d s.known_face_encodings q).getD
            (argmin (face_distance d s.known_face_encodings q)) 0) ≤ 1 := by
          rw [hval]; rw [max_le_iff]; constructor <;> linarith
        calc max 0 (1 - (face_distance d s.known_face_encodings q).getD
              (argmin (face_distance d s.known_face_encodings q)) 0) * 100
            ≤ 1 * 100 := by nlinarith [h1]
          _ = 100 := by norm_num
      · rw [if_neg hacc]; norm_num
  · intro m hm hm06
    have hne : s.known_face_encodings ≠ [] := by
      intro hnil
      rw [show face_distance d s.known_face_encodings q = [] by
        simp [face_distance, hnil]] at hm
      simp [List.min?] at hm
    obtain ⟨hlt, hval⟩ := argmin_getD hm
    have hlen : (face_distance d s.known_face_encodings q).length
        = s.known_face_encodings.length := by simp [face_distance]
    rw [recognize_face_nonempty d s q hne, if_pos (by rw [hval]; exact hm06)]
    refine ⟨by rw [hval], argmin (face_distance d s.known_face_encodings q),
      hlen ▸ hlt, ?_, rfl⟩
    have := List.getD_eq_getElem (face_distance d s.known_face_encodings q) 0 hlt
    rw [this] at hval
    simpa [face_distance] using hval
  · intro e1 nm h0
    simp [recognize_face, face_distance, argmin, List.min?, h0]

/-- C4 witness: a gallery `[("Alice", e1)]` with nonnegative distances,
queried by an encoding at distance `0` from `e1`. -/
theorem recognize_face_confidence_witness :
    (∀ e ∈ galleryA.known_face_encodings, 0 ≤ (fun _ _ => (0:ℚ)) e 0) ∧
    ((0 ≤ (recognize_face (fun _ _ => (0:ℚ)) galleryA 0).2 ∧
        (recognize_face (fun _ _ => (0:ℚ)) galleryA 0).2 ≤ 100) ∧
      (∀ m, (face_distance (fun _ _ => (0:ℚ)) galleryA.known_face_encodings 0).min? = some m →
        m < 3/5 →
        (recognize_face (fun _ _ => (0:ℚ)) galleryA 0).2 = max 0 (1 - m) * 100 ∧
        ∃ i, ∃ hi : i < galleryA.known_face_encodings.length,
          (fun _ _ => (0:ℚ)) (galleryA.known_face_encodings.get ⟨i, hi⟩) 0 = m ∧
          (recognize_face (fun _ _ => (0:ℚ)) galleryA 0).1 =
            galleryA.known_face_names.getD i "") ∧
      (∀ e1 nm, (fun _ _ => (0:ℚ)) e1 0 = 0 →
        recognize_face (fun _ _ => (0:ℚ)) ⟨[e1], [nm]⟩ 0 = (nm, 100))) :=
  ⟨by intro e _; norm_num,
    recognize_face_confidence (fun _ _ => (0:ℚ)) galleryA 0 (by intro e _; norm_num)⟩

/-! ## C8: save / load round-trip -/

/-- C8: pickling the gallery with `save_encodings` and re-reading it
with `load_encodings` restores exactly the same names and encodings, in
the same order (hence the same (name, encoding) pairs), and reports
success. -/
theorem save_load_roundtrip (env : Env) :
    (load_encodings (save_encodings env)).1.sys.known_face_names
        = env.sys.known_face_names ∧
    (load_encodings (save_encodings env)).1.sys.known_face_encodings
        = env.sys.known_face_encodings ∧
    (load_encodings (save_encodings env)).2 = true :=
  ⟨rfl, rfl, rfl⟩

/-! ## C7: remove_face -/

/-- C7: removing an absent name fails and changes nothing; removing a
present name succeeds, shrinks the gallery by exactly one entry, and
leaves neither the raw-name nor the underscored image path on disk. -/
theorem remove_face_spec (env : Env) (name : String) :
    (name ∉ env.sys.known_face_names → remove_face env name = (env, false)) ∧
    (name ∈ env.sys.known_face_names →
      (remove_face env name).2 = true ∧
      (remove_face env name).1.sys.known_face_names.length
        = env.sys.known_face_names.length - 1 ∧
      ("known_faces/" ++ name ++ ".jpg") ∉ (remove_face env name).1.files ∧
      ("known_faces/" ++ safe_name name ++ ".jpg") ∉ (remove_face env name).1.files) := by
  constructor
  · intro habs
    simp [remove_face, habs]
  · intro hmem
    have hidx : List.indexOf name env.sys.known_face_names
        < env.sys.known_face_names.length := List.indexOf_lt_length.mpr hmem
    refine ⟨by simp [remove_face, hmem], ?_, ?_, ?_⟩
    · simp [remove_face, hmem, save_encodings, List.length_eraseIdx, hidx]
    · simp only [remove_face, hmem, if_true, save_encodings, file_delete]
      intro hin
      have h1 := (List.mem_filter.mp hin).1
      have h2 := (List.mem_filter.mp h1).2
      simp at h2
    · simp only [remove_face, hmem, if_true, save_encodings, file_delete]
      intro hin
      have h2 := (List.mem_filter.mp hin).2
      simp at h2

/-- C7 witness: removing the absent "Carl" fails and removing the
present "Ann B" empties the gallery and deletes both path variants. -/
theorem remove_face_spec_witness :
    ("Carl" ∉ envR.sys.known_face_names ∧ remove_face envR "Carl" = (envR, false)) ∧
    ("Ann B" ∈ envR.sys.known_face_names ∧
      ((remove_face envR "Ann B").2 = true ∧
        (remove_face envR "Ann B").1.sys.known_face_names.length
          = envR.sys.known_face_names.length - 1 ∧
        ("known_faces/" ++ "Ann B" ++ ".jpg") ∉ (remove_face envR "Ann B").1.files ∧
        ("known_faces/" ++ safe_name "Ann B" ++ ".jpg") ∉ (remove_face envR "Ann B").1.files)) :=
  ⟨⟨by decide, (remove_face_spec envR "Carl").1 (by decide)⟩,
    ⟨by decide, (remove_face_spec envR "Ann B").2 (by decide)⟩⟩

/-! ## C5: single-face requirement for adding -/

/-- C5 counterexample: `add_face_from_image` on an image with TWO
detected faces is not rejected — it succeeds and grows the gallery. -/
theorem add_face_from_image_accepts_multiple_faces :
    (add_face_from_image env0 (some [1, 2]) "Eve").2 = true ∧
    (add_face_from_image env0 (some [1, 2]) "Eve").1.sys.known_face_names.length
      = env0.sys.known_face_names.length + 1 := by
  constructor <;> decide

/-- C5 amended: capturing from a live frame (`capture_new_face`)
requires exactly one detected face — zero or multiple faces leave the
environment unchanged; adding from a file (`add_face_from_image`)
rejects an unreadable image and an image with zero detected faces with
the gallery unchanged, but does not reject multiple faces: it succeeds
and registers the FIRST detected face. -/
theorem add_face_single_face_policy (env : Env) (nm : String) (e e2 : Encoding)
    (rest rest2 : List Encoding) :
    capture_new_face env [] nm = env ∧
    capture_new_face env (e :: e2 :: rest) nm = env ∧
    add_face_from_image env none nm = (env, false) ∧
    add_face_from_image env (some []) nm = (env, false) ∧
    (add_face_from_image env (some (e :: rest2)) nm).2 = true ∧
    (add_face_from_image env (some (e :: rest2)) nm).1.sys.known_face_encodings
      = env.sys.known_face_encodings ++ [e] ∧
    (add_face_from_image env (some (e :: rest2)) nm).1.sys.known_face_names
      = env.sys.known_face_names ++ [nm] :=
  ⟨rfl, rfl, rfl, rfl, rfl, rfl, rfl⟩

/-! ## C6: gallery name uniqueness -/

/-- C6 counterexample: adding "Alice" twice through
`add_face_from_frame` leaves "Alice" twice in the names list — name
uniqueness is not an invariant of the gallery. -/
theorem gallery_name_uniqueness_fails :
    ((add_face_from_frame (add_face_from_frame env0 [5] "Alice").1 [6] "Alice").1).sys.known_face_names
      = ["Alice", "Alice"] ∧
    ((add_face_from_frame (add_face_from_frame env0 [5] "Alice").1 [6] "Alice").1).sys.known_face_names.count "Alice"
      = 2 := by
  constructor <;> decide

/-- C6 amended: the add-face operations do not enforce name uniqueness:
`add_face_from_frame` appends the given name unconditionally, so adding
a name increases its occurrence count by one even when it is already
present (in which case it afterwards occurs more than once). -/
theorem add_face_does_not_enforce_name_uniqueness (env : Env) (e : Encoding)
    (rest : List Encoding) (nm : String) :
    (add_face_from_frame env (e :: rest) nm).1.sys.known_face_names
      = env.sys.known_face_names ++ [nm] ∧
    (add_face_from_frame env (e :: rest) nm).1.sys.known_face_names.count nm
      = env.sys.known_face_names.count nm + 1 := by
  refine ⟨rfl, ?_⟩
  simp [add_face_from_frame, save_encodings, List.count_append]

/-! ## C9: names / encodings alignment -/

lemma aligned_after_add (encs : List Encoding) (names files : List String)
    (store : Option (List String × List Encoding)) (e : Encoding) (n fn : String)
    (h1 : names.length = encs.length) :
    Aligned (save_encodings ⟨⟨encs ++ [e], names ++ [n]⟩, file_write files fn, store⟩) := by
  refine ⟨by simp [save_encodings, h1], ?_⟩
  intro ns es heq
  simp only [save_encodings, Option.some.injEq, Prod.mk.injEq] at heq
  obtain ⟨h3, h4⟩ := heq
  subst h3; subst h4
  simp [h1]

lemma apply_op_aligned (env : Env) (op : GalleryOp) (h : Aligned env) :
    Aligned (apply_op env op) := by
  obtain ⟨⟨encs, names⟩, files, store⟩ := env
  obtain ⟨h1, h2⟩ := h
  cases op with
  | loadEnc =>
      cases store with
      | none => exact ⟨h1, h2⟩
      | some data => exact ⟨h2 data.1 data.2 rfl, h2⟩
  | addFrame f n =>
      cases f with
      | nil => exact ⟨h1, h2⟩
      | cons e rest => exact aligned_after_add encs names files store e n _ h1
  | addImage i n =>
      cases i with
      | none => exact ⟨h1, h2⟩
      | some f =>
          cases f with
          | nil => exact ⟨h1, h2⟩
          | cons e rest => exact aligned_after_add encs names files store e n _ h1
  | capture f n =>
      cases f with
      | nil => exact ⟨h1, h2⟩
      | cons e rest =>
          cases rest with
          | nil =>
              by_cases hn : strip n = ""
              · simp only [apply_op, capture_new_face, hn, ne_eq, not_true_eq_false,
                  if_false]
                exact ⟨h1, h2⟩
              · simp only [apply_op, capture_new_face, ne_eq, hn, not_false_eq_true,
                  if_true]
                exact aligned_after_add encs names files store e (strip n) _ h1
          | cons e2 rest2 => exact ⟨h1, h2⟩
  | remove n =>
      have h1' : names.length = encs.length := h1
      by_cases hmem : n ∈ names
      · have hidx : List.indexOf n names < names.length :=
          List.indexOf_lt_length.mpr hmem
        have hidx2 : List.indexOf n names < encs.length := h1' ▸ hidx
        refine ⟨?_, ?_⟩
        · simp [apply_op, remove_face, hmem, save_encodings, List.length_eraseIdx,
            hidx, hidx2, h1', List.length_erase_of_mem hmem]
        · intro ns es heq
          simp only [apply_op, remove_face, hmem, if_true, save_encodings,
            Option.some.injEq, Prod.mk.injEq] at heq
          obtain ⟨h3, h4⟩ := heq
          subst h3; subst h4
          simp [List.length_eraseIdx, hidx, hidx2, h1', List.length_erase_of_mem hmem]
      · simp only [apply_op, remove_face, hmem, if_false]
        exact ⟨h1, h2⟩

/-- C9: every sequence of gallery operations (load, add from frame, add
from image, capture, remove) preserves the alignment invariant: the
names list and the encodings list keep the same length (in memory and
in the pickle store). -/
theorem gallery_ops_alignment (env : Env) (ops : List GalleryOp) (h : Aligned env) :
    Aligned (apply_ops env ops) ∧
    (apply_ops env ops).sys.known_face_names.length
      = (apply_ops env ops).sys.known_face_encodings.length := by
  have hmain : ∀ (l : List GalleryOp) (env : Env), Aligned env →
      Aligned (apply_ops env l) := by
    intro l
    induction l with
    | nil => intro env h; exact h
    | cons op ops ih =>
        intro env h
        exact ih (apply_op env op) (apply_op_aligned env op h)
  exact ⟨hmain ops env h, (hmain ops env h).1⟩

/-- C9 witness: one operation of each kind, starting from the empty
(aligned) environment. -/
theorem gallery_ops_alignment_witness :
    Aligned env0 ∧
    (Aligned (apply_ops env0 opsW) ∧
      (apply_ops env0 opsW).sys.known_face_names.length
        = (apply_ops env0 opsW).sys.known_face_encodings.length) := by
  have h0 : Aligned env0 := ⟨rfl, by intro ns es heq; simp [env0] at heq⟩
  exact ⟨h0, gallery_ops_alignment env0 opsW h0⟩

/-! ## C1: cooldown-gated history recording -/

/-- C1: if `name` was last logged at `t0`, then an event at `t0 + Δ` is
recorded iff `Δ ≥ cooldown`: for `Δ < cooldown` the recorder state is
completely unchanged (history untouched, `last_recognized[name]` still
`t0`); for `Δ ≥ cooldown` exactly one record is appended and
`last_recognized[name]` becomes `t0 + Δ`. -/
theorem add_recognition_cooldown (st : GuiState) (n : String) (conf t0 dlt : ℚ)
    (h0 : List.lookup n st.last_recognized = some t0) :
    (dlt < st.recognition_cooldown →
        add_recognition_to_history st n conf (t0 + dlt) = st) ∧
    (st.recognition_cooldown ≤ dlt →
        (add_recognition_to_history st n conf (t0 + dlt)).recognition_history
          = st.recognition_history ++ [⟨t0 + dlt, n, conf⟩] ∧
        List.lookup n (add_recognition_to_history st n conf (t0 + dlt)).last_recognized
          = some (t0 + dlt)) := by
  have harith : t0 + dlt - t0 = dlt := by ring
  have hb : cooldown_blocks st n (t0 + dlt) = decide (dlt < st.recognition_cooldown) := by
    simp [cooldown_blocks, h0, harith]
  constructor
  · intro hlt
    simp [add_recognition_to_history, hb, hlt]
  · intro hge
    have hnlt : ¬ dlt < st.recognition_cooldown := not_lt.mpr hge
    cases hA : st.auto_save_enabled <;>
      simp [add_recognition_to_history, hb, hnlt, save_history, dict_insert, hA,
        List.lookup]

/-- C1 witness: with cooldown 5 and "Bob" last logged at time 10, an
event at time 12 (Δ = 2 < 5) is dropped. -/
theorem add_recognition_cooldown_witness :
    List.lookup "Bob" stG.last_recognized = some 10 ∧
    ((2:ℚ) < stG.recognition_cooldown ∧
      add_recognition_to_history stG "Bob" 80 (10 + 2) = stG) :=
  ⟨by decide,
    by decide,
    (add_recognition_cooldown stG "Bob" 80 10 2 (by decide)).1 (by decide)⟩

/-! ## C10: the capture loop never logs an unrecognized face -/

lemma mem_history_add (st : GuiState) (n : String) (conf t : ℚ) (r : HistRecord)
    (hr : r ∈ (add_recognition_to_history st n conf t).recognition_history) :
    r ∈ st.recognition_history ∨ r = ⟨t, n, conf⟩ := by
  by_cases hc : cooldown_blocks st n t
  · left
    simpa [add_recognition_to_history, hc] using hr
  · have hh : (add_recognition_to_history st n conf t).recognition_history
        = st.recognition_history ++ [⟨t, n, conf⟩] := by
      cases hA : st.auto_save_enabled <;>
        simp [add_recognition_to_history, hc, hA, save_history]
    rw [hh] at hr
    simpa using hr

lemma mem_db_log_add (persons : List String) (log : List (String × ℚ)) (n : String)
    (c : ℚ) (p : String × ℚ) (hp : p ∈ log_recognition persons log n c) :
    p ∈ log ∨ p = (n, c) := by
  unfold log_recognition at hp
  by_cases h : n ∈ persons
  · rw [if_pos h] at hp
    simpa using hp
  · rw [if_neg h] at hp
    exact Or.inl hp

lemma process_encoding_loginv (d : DistFn) (sys : FRState) (persons : List String)
    (now : ℚ) (st : LoopState) (enc : Encoding) (h : LogInv st) :
    LogInv (video_loop_process_encoding d sys persons now st enc) := by
  simp only [video_loop_process_encoding]
  by_cases hc : (recognize_face d sys enc).1 ≠ "Unknown" ∧ 0 < (recognize_face d sys enc).2
  · rw [if_pos hc]
    constructor
    · intro r hr
      rcases mem_history_add _ _ _ _ _ hr with h1 | h1
      · exact h.1 r h1
      · rw [h1]
        exact ⟨hc.1, hc.2⟩
    · intro p hp
      rcases mem_db_log_add _ _ _ _ _ hp with h1 | h1
      · exact h.2 p h1
      · rw [h1]
        exact ⟨hc.1, div_pos hc.2 (by norm_num)⟩
  · rw [if_neg hc]
    exact h

lemma process_frame_loginv (d : DistFn) (sys : FRState) (persons : List String)
    (now : ℚ) (encs : List Encoding) (st : LoopState) (h : LogInv st) :
    LogInv (video_loop_process_frame d sys persons now st encs) := by
  induction encs generalizing st with
  | nil => exact h
  | cons e es ih => exact ih _ (process_encoding_loginv d sys persons now st e h)

/-- C10: starting from logs whose entries all name a recognized person
(in particular from empty logs), after the capture loop processed any
sequence of frames, every history record and every database row still
has a name other than "Unknown" and strictly positive confidence: the
loop only passes a recognition to `add_recognition_to_history` and the
database logger when its name is not "Unknown" and its confidence is
positive. -/
theorem video_loop_never_logs_unknown (d : DistFn) (sys : FRState)
    (persons : List String) (st : LoopState) (frames : List (ℚ × List Encoding))
    (h : LogInv st) :
    LogInv (video_loop_run d sys persons st frames) ∧
    (∀ r ∈ (video_loop_run d sys persons st frames).gui.recognition_history,
        r.name ≠ "Unknown" ∧ 0 < r.confidence) ∧
    (∀ p ∈ (video_loop_run d sys persons st frames).db_log,
        p.1 ≠ "Unknown" ∧ 0 < p.2) := by
  have hmain : ∀ (fs : List (ℚ × List Encoding)) (st : LoopState), LogInv st →
      LogInv (video_loop_run d sys persons st fs) := by
    intro fs
    induction fs with
    | nil => intro st h; exact h
    | cons f fs ih =>
        intro st h
        exact ih _ (process_frame_loginv d sys persons f.1 f.2 st h)
  exact ⟨hmain frames st h, (hmain frames st h).1, (hmain frames st h).2⟩

/-- C10 witness: two frames processed from the empty loop state with a
one-person gallery. -/
theorem video_loop_never_logs_unknown_witness :
    LogInv loopW ∧
    (LogInv (video_loop_run (fun _ _ => (0:ℚ)) galleryA ["Alice"] loopW framesW) ∧
      (∀ r ∈ (video_loop_run (fun _ _ => (0:ℚ)) galleryA ["Alice"] loopW framesW).gui.recognition_history,
          r.name ≠ "Unknown" ∧ 0 < r.confidence) ∧
      (∀ p ∈ (video_loop_run (fun _ _ => (0:ℚ)) galleryA ["Alice"] loopW framesW).db_log,
          p.1 ≠ "Unknown" ∧ 0 < p.2)) := by
  have h0 : LogInv loopW :=
    ⟨by intro r hr; simp [loopW] at hr, by intro p hp; simp [loopW] at hp⟩
  exact ⟨h0, video_loop_never_logs_unknown (fun _ _ => (0:ℚ)) galleryA ["Alice"] loopW framesW h0⟩

end FaceRec
